import Mathlib

/-!
Verification of the nobrainer.host deploy pipeline (src/cli/bin/cli.js,
function deployCommand and its helpers run / runSSH).

The deploy pipeline is embedded shallowly:
* pure computations (app detection, port counting, nginx config rendering)
  become Lean functions transcribed from the source;
* the sequential pipeline with its fatal / best-effort remote calls becomes
  an explicit state-passing function `deployRun` over an `Oracle` that says
  which remote calls succeed.  A call made through `run`/`runSSH` without
  `allowFail: true` aborts the whole process on failure (process.exit(1));
  a call with `allowFail: true` continues regardless of the outcome.
-/

/-- A top-level directory entry of the repository as seen by
`fs.readdirSync(cwd)` together with the two facts the code queries about it:
`statSync(...).isDirectory()` and
`existsSync(path.join(cwd, app, 'docker-compose.yml'))`. -/
structure DirEntry where
  name : String
  isDir : Bool
  hasCompose : Bool
deriving DecidableEq

/-- An app record: its folder name and whether it is a Docker (containerized)
app, i.e. its folder directly contains `docker-compose.yml`. -/
structure App where
  name : String
  docker : Bool
deriving DecidableEq

/-- Does the name start with a dot (`f.startsWith('.')`, i.e. its first
character is `.`)? -/
def startsWithDot (n : String) : Bool :=
  match n.data with
  | [] => false
  | c :: _ => c == '.'

/-- The reserved-name exclusion of the classifier:
`!f.startsWith('.') && !['node_modules', 'server-setup', '_root'].includes(f)`. -/
def isReserved (n : String) : Bool :=
  startsWithDot n || n == "node_modules" || n == "server-setup" || n == "_root"

/-- Lexicographic comparison of character sequences by code point.  Code
point order coincides with byte-wise UTF-8 lexicographic order; this is the
order the spec's "sorted by byte-wise lexicographic name order" refers to,
NOT the order the code's `.sort()` applies (see `nameLe16`). -/
def charListLe : List Char → List Char → Bool
  | [], _ => true
  | _ :: _, [] => false
  | a :: as, b :: bs =>
    if a.toNat < b.toNat then true
    else if b.toNat < a.toNat then false
    else charListLe as bs

/-- Byte-wise (code-point) lexicographic name order, following the spec's
words; used to compare the spec's claimed ordering with the code's. -/
def nameLe (a b : String) : Bool := charListLe a.data b.data

/-- The UTF-16 code units encoding one Unicode scalar value: the value
itself if it is in the basic plane, otherwise its surrogate pair. -/
def charUtf16 (c : Char) : List Nat :=
  if c.toNat < 0x10000 then [c.toNat]
  else [0xD800 + (c.toNat - 0x10000) / 0x400,
    0xDC00 + (c.toNat - 0x10000) % 0x400]

/-- The UTF-16 code-unit sequence of a character sequence, the
representation on which JavaScript string comparison operates. -/
def utf16Units : List Char → List Nat
  | [] => []
  | c :: cs => charUtf16 c ++ utf16Units cs

/-- Lexicographic comparison of code-unit sequences. -/
def natListLe : List Nat → List Nat → Bool
  | [], _ => true
  | _ :: _, [] => false
  | a :: as, b :: bs =>
    if a < b then true
    else if b < a then false
    else natListLe as bs

/-- The name order the code's `.sort()` actually applies: the default
`Array.prototype.sort` comparator compares strings by their UTF-16 code
units.  This agrees with `nameLe` except between a supplementary-plane name
and an upper-BMP name (surrogate units 0xD800-0xDFFF sort below
0xE000-0xFFFF while the corresponding code points sort above). -/
def nameLe16 (a b : String) : Bool :=
  natListLe (utf16Units a.data) (utf16Units b.data)

/-- Step 2 of deployCommand (`Detecting apps`): keep top-level entries that
are directories and not reserved, sort by name (`.sort()` on the names,
i.e. UTF-16 code-unit lexicographic order), and record for each whether it
has a compose file.  Non-directory entries are dropped by the filter, never
an error. -/
def detectApps (entries : List DirEntry) : List App :=
  ((entries.filter (fun e => e.isDir && !isReserved e.name)).map
      (fun e => App.mk e.name e.hasCompose)).insertionSort
    (fun a b => nameLe16 a.name b.name = true)

/-- The port walk of the config-generation loop (step 7): walk the full
app list with a counter; a Docker app is paired with the counter which is
then incremented, a static app is paired with no port and leaves the
counter unchanged (`let port = 3000; for (const app of allApps) { ... if docker
... port++ }`). -/
def portWalk : List App → Nat → List (String × Option Nat)
  | [], _ => []
  | a :: rest, p =>
    if a.docker then (a.name, some p) :: portWalk rest (p + 1)
    else (a.name, none) :: portWalk rest p

/-- Port assignment of config generation, with the counter started at 3000. -/
def portAssign (apps : List App) : List (String × Option Nat) :=
  portWalk apps 3000

/-- The container-start walk of step 3: walk the Docker app list only, pairing
each app with the counter and incrementing every time
(`let port = 3000; for (const app of dockerApps) { ...PORT=port...; port++ }`). -/
def startWalk : List App → Nat → List (String × Nat)
  | [], _ => []
  | a :: rest, p => (a.name, p) :: startWalk rest (p + 1)

/-- Step 4 (orphaned container cleanup): the remote shell loop iterates over
the running compose project identities and stops exactly those whose app
directory is absent (`if [ ! -d "/var/www/apps/$project" ]`).  `desired` is
the set of directory names present on the server. -/
def orphanSet (running desired : List String) : List String :=
  running.filter (fun p => !desired.contains p)

/-- Step 5 (certificate issuance): the loop runs once per app of `allApps`,
invoking `ensure-cert.sh ${app} ${domain}`, i.e. one issuance per subject
`<app>.<domain>`. -/
def certSubjects (apps : List App) (domain : String) : List String :=
  apps.map (fun a => a.name ++ "." ++ domain)

/-- The HTTP (port 80) server block of the nginx config template: ACME
challenges plus redirect to HTTPS. -/
def httpBlockStr (d : String) : String :=
  "# HTTP - ACME challenges and redirect to HTTPS\nserver \x7b\n    listen 80;\n    listen [::]:80;\n    server_name *." ++ d ++ " " ++ d ++ ";\n    location /.well-known/acme-challenge/ \x7b root /var/www/acme-challenge; \x7d\n    location / \x7b return 301 https://\\$host\\$request_uri; \x7d\n\x7d\n"

/-- The secured root-domain server block of the nginx config template. -/
def rootTlsStr (d : String) : String :=
  "# Root domain\nserver \x7b\n    listen 443 ssl http2;\n    listen [::]:443 ssl http2;\n    server_name " ++ d ++ ";\n    ssl_certificate /etc/letsencrypt/live/" ++ d ++ "/fullchain.pem;\n    ssl_certificate_key /etc/letsencrypt/live/" ++ d ++ "/privkey.pem;\n    ssl_protocols TLSv1.2 TLSv1.3;\n    ssl_prefer_server_ciphers off;\n    root /var/www/apps/_root;\n    index index.html;\n    location / \x7b try_files \\$uri \\$uri/ =404; \x7d\n\x7d\n"

/-- The per-app server block for a Docker app: forward proxy to
`127.0.0.1:<port>` with upgrade and forwarded headers. -/
def dockerBlockStr (n d : String) (p : Nat) : String :=
  "\n# Docker app - " ++ n ++ " -> port " ++ toString p ++ "\nserver \x7b\n    listen 443 ssl http2;\n    listen [::]:443 ssl http2;\n    server_name " ++ n ++ "." ++ d ++ ";\n    ssl_certificate /etc/letsencrypt/live/" ++ n ++ "." ++ d ++ "/fullchain.pem;\n    ssl_certificate_key /etc/letsencrypt/live/" ++ n ++ "." ++ d ++ "/privkey.pem;\n    ssl_protocols TLSv1.2 TLSv1.3;\n    ssl_prefer_server_ciphers off;\n    location / \x7b\n        proxy_pass http://127.0.0.1:" ++ toString p ++ ";\n        proxy_http_version 1.1;\n        proxy_set_header Upgrade \\$http_upgrade;\n        proxy_set_header Connection \x27upgrade\x27;\n        proxy_set_header Host \\$host;\n        proxy_set_header X-Real-IP \\$remote_addr;\n        proxy_set_header X-Forwarded-For \\$proxy_add_x_forwarded_for;\n        proxy_set_header X-Forwarded-Proto \\$scheme;\n        proxy_cache_bypass \\$http_upgrade;\n    \x7d\n\x7d\n"

/-- The per-app server block for a static app: `root` at the app directory,
SPA fallback to index.html, long-lived caching for asset extensions. -/
def staticBlockStr (n d : String) : String :=
  "\n# Static app - " ++ n ++ "\nserver \x7b\n    listen 443 ssl http2;\n    listen [::]:443 ssl http2;\n    server_name " ++ n ++ "." ++ d ++ ";\n    ssl_certificate /etc/letsencrypt/live/" ++ n ++ "." ++ d ++ "/fullchain.pem;\n    ssl_certificate_key /etc/letsencrypt/live/" ++ n ++ "." ++ d ++ "/privkey.pem;\n    ssl_protocols TLSv1.2 TLSv1.3;\n    ssl_prefer_server_ciphers off;\n    root /var/www/apps/" ++ n ++ ";\n    index index.html index.htm;\n    add_header X-Frame-Options \"SAMEORIGIN\" always;\n    add_header X-Content-Type-Options \"nosniff\" always;\n    gzip on;\n    gzip_types text/plain text/css application/json application/javascript text/xml application/xml;\n    location / \x7b try_files \\$uri \\$uri/ /index.html =404; \x7d\n    location ~* \\.(js|css|png|jpg|jpeg|gif|ico|svg|woff|woff2|ttf|eot)$ \x7b\n        expires 30d;\n        add_header Cache-Control \"public, immutable\";\n    \x7d\n\x7d\n"

/-- The loop of step 7 building the nginx config by string concatenation:
a Docker app appends its proxy block and increments the port counter, a
static app appends its static block and leaves the counter unchanged. -/
def genLoop (d : String) : List App → Nat → String
  | [], _ => ""
  | a :: rest, p =>
    if a.docker then dockerBlockStr a.name d p ++ genLoop d rest (p + 1)
    else staticBlockStr a.name d ++ genLoop d rest p

/-- The complete rendered nginx config of step 7: the HTTP block and the root
block (the initial template literal), followed by the per-app loop with the
port counter starting at 3000. -/
def genNginxConfig (apps : List App) (d : String) : String :=
  httpBlockStr d ++ rootTlsStr d ++ genLoop d apps 3000

/-- A structured view of the server blocks the generator emits, used to count
and classify blocks of the rendered document. -/
inductive Block where
  | plainHttp (domain : String)
  | rootTls (domain : String)
  | proxyApp (name domain : String) (port : Nat)
  | staticApp (name domain : String)
deriving DecidableEq

/-- The exact text each structured block renders to. -/
def renderBlock : Block → String
  | .plainHttp d => httpBlockStr d
  | .rootTls d => rootTlsStr d
  | .proxyApp n d p => dockerBlockStr n d p
  | .staticApp n d => staticBlockStr n d

/-- Concatenation of rendered blocks. -/
def renderBlocks (bs : List Block) : String :=
  (bs.map renderBlock).foldr (fun x y => x ++ y) ""

/-- The structured form of the per-app generation loop. -/
def blockWalk (d : String) : List App → Nat → List Block
  | [], _ => []
  | a :: rest, p =>
    if a.docker then Block.proxyApp a.name d p :: blockWalk d rest (p + 1)
    else Block.staticApp a.name d :: blockWalk d rest p

/-- The structured form of the whole generated document: HTTP block, root
block, then one block per app in order. -/
def blockList (apps : List App) (d : String) : List Block :=
  Block.plainHttp d :: Block.rootTls d :: blockWalk d apps 3000

/-- Is this the plaintext port-80 block? -/
def Block.isPlainHttp : Block → Bool
  | .plainHttp _ => true
  | _ => false

/-- Is this the secured root-domain block? -/
def Block.isRootTls : Block → Bool
  | .rootTls _ => true
  | _ => false

/-- Is this a forward-proxy block? -/
def Block.isProxy : Block → Bool
  | .proxyApp _ _ _ => true
  | _ => false

/-- The app name a per-app block serves, if any. -/
def blockName : Block → Option String
  | .proxyApp n _ _ => some n
  | .staticApp n _ => some n
  | _ => none

/-- The app name and proxy port of a forward-proxy block, if any. -/
def proxyPortOf : Block → Option (String × Nat)
  | .proxyApp n _ p => some (n, p)
  | _ => none

/-- The steps of the deploy pipeline, in the order deployCommand runs them. -/
inductive Step where
  | syncFiles
  | detectAppsStep
  | startContainers
  | stopOrphans
  | issueCerts
  | fixPermissions
  | renderConfig
  | validateAndReload
deriving DecidableEq

/-- Which remote calls of a run succeed.  Calls made with `allowFail: true`
(container starts, orphan cleanup, certificate issuance) never affect
control flow even when they fail; calls made without it (the initial rsync,
the permission fix, the config scp, the validate-and-reload ssh) make the
process exit on failure. -/
structure Oracle where
  rsyncOk : Bool
  startOk : String → Bool
  cleanupOk : Bool
  certOk : String → Bool
  permsOk : Bool
  scpOk : Bool
  validateOk : String → Bool

/-- The two pieces of proxy configuration state on the target:
the content of the on-disk file `/etc/nginx/sites-available/apps`
(activated through the `sites-enabled` symlink) and the configuration the
running nginx currently serves. -/
structure ServerState where
  siteFile : String
  loadedConfig : String
deriving DecidableEq

/-- The observable outcome of one deploy run. -/
structure RunResult where
  trace : List Step
  startInvocations : List (String × Nat)
  certInvocations : List String
  failedCerts : List String
  rendered : Option String
  server : ServerState
  reloaded : Bool
  abortedAt : Option Step
deriving DecidableEq

/-- The deploy pipeline of deployCommand, steps 1-7, as explicit state
passing.  Fatal calls (`run` without `allowFail`) return early with
`abortedAt` set; best-effort calls record their invocations (and, for
certificates, which ones failed) and continue regardless of the oracle.
Step 7 first overwrites the on-disk config file via scp, then a single ssh
re-links it, runs `nginx -t` on it and reloads only when validation
succeeds. -/
def deployRun (o : Oracle) (entries : List DirEntry) (domain : String)
    (s0 : ServerState) : RunResult :=
  if !o.rsyncOk then
    { trace := [Step.syncFiles], startInvocations := [], certInvocations := [],
      failedCerts := [], rendered := none, server := s0, reloaded := false,
      abortedAt := some Step.syncFiles }
  else
    let apps := detectApps entries
    let dockerApps := apps.filter (fun a => a.docker)
    let starts := startWalk dockerApps 3000
    let certs := certSubjects apps domain
    let failed := certs.filter (fun s => !o.certOk s)
    let t5 := [Step.syncFiles, Step.detectAppsStep, Step.startContainers,
      Step.stopOrphans, Step.issueCerts, Step.fixPermissions]
    if !o.permsOk then
      { trace := t5, startInvocations := starts, certInvocations := certs,
        failedCerts := failed, rendered := none, server := s0,
        reloaded := false, abortedAt := some Step.fixPermissions }
    else
      let cfg := genNginxConfig apps domain
      let t6 := t5 ++ [Step.renderConfig]
      if !o.scpOk then
        { trace := t6, startInvocations := starts, certInvocations := certs,
          failedCerts := failed, rendered := some cfg, server := s0,
          reloaded := false, abortedAt := some Step.renderConfig }
      else
        let s1 : ServerState := { siteFile := cfg, loadedConfig := s0.loadedConfig }
        let t7 := t6 ++ [Step.validateAndReload]
        if o.validateOk cfg then
          { trace := t7, startInvocations := starts, certInvocations := certs,
            failedCerts := failed, rendered := some cfg,
            server := { siteFile := cfg, loadedConfig := cfg },
            reloaded := true, abortedAt := none }
        else
          { trace := t7, startInvocations := starts, certInvocations := certs,
            failedCerts := failed, rendered := some cfg, server := s1,
            reloaded := false, abortedAt := some Step.validateAndReload }

/-- An oracle on which every remote call succeeds. -/
def okOracle : Oracle :=
  { rsyncOk := true, startOk := fun _ => true, cleanupOk := true,
    certOk := fun _ => true, permsOk := true, scpOk := true,
    validateOk := fun _ => true }

/-- An oracle on which only the certificate-permission fix fails. -/
def permsFailOracle : Oracle :=
  { okOracle with permsOk := false }

/-- An oracle on which only the config syntax validation fails. -/
def validateFailOracle : Oracle :=
  { okOracle with validateOk := fun _ => false }

/-- An oracle on which exactly one certificate issuance fails. -/
def oneCertFailOracle : Oracle :=
  { okOracle with certOk := fun s => !(s == "bad.example.com") }

theorem portWalk_getElem? (l : List App) (p i : Nat) :
    (portWalk l p)[i]? =
      (l[i]?).map (fun a =>
        (a.name,
          if a.docker then some (p + (l.take i).countP (fun x => x.docker))
          else none)) := by
  induction l generalizing p i with
  | nil => simp [portWalk]
  | cons a rest ih =>
    cases i with
    | zero => cases h : a.docker <;> simp [portWalk, h]
    | succ i =>
      cases h : a.docker with
      | true =>
        have hw : portWalk (a :: rest) p = (a.name, some p) :: portWalk rest (p + 1) := by
          simp [portWalk, h]
        rw [hw, List.getElem?_cons_succ, List.getElem?_cons_succ, ih]
        congr 1
        funext a2
        cases h2 : a2.docker <;>
          simp [h2, List.take_succ_cons, List.countP_cons, h, Nat.add_assoc,
            Nat.add_comm]
      | false =>
        have hw : portWalk (a :: rest) p = (a.name, none) :: portWalk rest p := by
          simp [portWalk, h]
        rw [hw, List.getElem?_cons_succ, List.getElem?_cons_succ, ih]
        congr 1
        funext a2
        cases h2 : a2.docker <;>
          simp [h2, List.take_succ_cons, List.countP_cons, h]

theorem blockWalk_filterMap_proxy (d : String) (l : List App) (p : Nat) :
    (blockWalk d l p).filterMap proxyPortOf =
      startWalk (l.filter (fun a => a.docker)) p := by
  induction l generalizing p with
  | nil => rfl
  | cons a rest ih =>
    by_cases h : a.docker <;>
      simp [blockWalk, h, List.filter_cons, startWalk, proxyPortOf,
        List.filterMap_cons, ih]

/-- C2: for every app list, the config-generation port walk starts its counter
at 3000, assigns the counter to each Containerized app then increments it,
and a Static app gets no port and leaves the counter unchanged — the i-th
app's port is 3000 plus the number of containerized apps before it; and on
{abc:containerized, blog:static, myapi:containerized, xyz:containerized} the
result is abc=3000, blog=none, myapi=3001, xyz=3002. -/
theorem port_allocator_full_walk :
    (∀ (apps : List App) (i : Nat),
        (portAssign apps)[i]? =
          (apps[i]?).map (fun a =>
            (a.name,
              if a.docker then
                some (3000 + (apps.take i).countP (fun x => x.docker))
              else none))) ∧
      portAssign
          [App.mk "abc" true, App.mk "blog" false, App.mk "myapi" true,
            App.mk "xyz" true] =
        [("abc", some 3000), ("blog", none), ("myapi", some 3001),
          ("xyz", some 3002)] := by
  refine ⟨fun apps i => portWalk_getElem? apps 3000 i, ?_⟩
  decide

/-- C3: for every running identity set and desired name set, the orphan set
is exactly the running identities absent from the desired names, an identity
matching a desired name is never in the teardown set, and on running
{a,b,c} with desired {a,c} the orphan set is {b} exactly. -/
theorem orphan_detection_exact :
    (∀ (running desired : List String) (p : String),
        p ∈ orphanSet running desired ↔ p ∈ running ∧ p ∉ desired) ∧
      (∀ (running desired : List String) (p : String),
        p ∈ desired → p ∉ orphanSet running desired) ∧
      orphanSet ["a", "b", "c"] ["a", "c"] = ["b"] := by
  have hmem : ∀ (running desired : List String) (p : String),
      p ∈ orphanSet running desired ↔ p ∈ running ∧ p ∉ desired := by
    intro running desired p
    simp [orphanSet, List.mem_filter]
  refine ⟨hmem, ?_, by decide⟩
  intro running desired p hp hmem2
  exact ((hmem running desired p).mp hmem2).2 hp

theorem orphan_detection_exact_witness :
    "a" ∈ ["a", "c"] ∧ "a" ∉ orphanSet ["a", "b", "c"] ["a", "c"] :=
  ⟨by decide, orphan_detection_exact.2.1 ["a", "b", "c"] ["a", "c"] "a" (by decide)⟩

/-- C6: proxy config generation is a pure function of the app topology and
root domain — identical inputs always produce byte-identical output. -/
theorem config_generation_deterministic (apps1 apps2 : List App)
    (d1 d2 : String) (h : apps1 = apps2) (hd : d1 = d2) :
    genNginxConfig apps1 d1 = genNginxConfig apps2 d2 := by
  subst h; subst hd; rfl

theorem config_generation_deterministic_witness :
    [App.mk "blog" false] = [App.mk "blog" false] ∧
      ("example.com" : String) = "example.com" ∧
      genNginxConfig [App.mk "blog" false] "example.com" =
        genNginxConfig [App.mk "blog" false] "example.com" :=
  ⟨rfl, rfl, config_generation_deterministic _ _ _ _ rfl rfl⟩

/-- C9: the ports passed to the container-start step (a walk over the
containerized sublist with a counter from 3000) coincide with the ports
written into the proxy blocks of the generated config (a walk over the full
list incrementing only on containerized apps): the pipeline's start
invocations equal the (name, port) pairs extracted from the generated block
list. -/
theorem start_ports_match_proxy_ports (o : Oracle) (entries : List DirEntry)
    (domain : String) (s : ServerState) (h : o.rsyncOk = true) :
    (deployRun o entries domain s).startInvocations =
      (blockList (detectApps entries) domain).filterMap proxyPortOf := by
  unfold deployRun
  simp only [h, Bool.not_true, Bool.false_eq_true, if_false]
  rw [blockList]
  simp only [List.filterMap_cons, proxyPortOf]
  rw [blockWalk_filterMap_proxy]
  split <;> (try split) <;> (try split) <;> rfl

theorem natListLe_total (as bs : List Nat) :
    natListLe as bs = true ∨ natListLe bs as = true := by
  induction as generalizing bs with
  | nil => left; rfl
  | cons a as ih =>
    cases bs with
    | nil => right; rfl
    | cons b bs =>
      by_cases h1 : a < b
      · left; simp [natListLe, h1]
      · by_cases h2 : b < a
        · right; simp [natListLe, h2]
        · rcases ih bs with h | h
          · left; simp [natListLe, h1, h2, h]
          · right; simp [natListLe, h1, h2, h]

theorem natListLe_trans (as bs cs : List Nat)
    (h1 : natListLe as bs = true) (h2 : natListLe bs cs = true) :
    natListLe as cs = true := by
  induction as generalizing bs cs with
  | nil => rfl
  | cons a as ih =>
    cases bs with
    | nil => simp [natListLe] at h1
    | cons b bs =>
      cases cs with
      | nil => simp [natListLe] at h2
      | cons c cs =>
        simp only [natListLe] at h1 h2 ⊢
        split_ifs at h1 h2 ⊢ <;>
          first
            | rfl
            | exact absurd h1 Bool.false_ne_true
            | exact absurd h2 Bool.false_ne_true
            | omega
            | exact ih bs cs h1 h2

instance : IsTotal App (fun a b => nameLe16 a.name b.name = true) :=
  ⟨fun a b => natListLe_total (utf16Units a.name.data) (utf16Units b.name.data)⟩

instance : IsTrans App (fun a b => nameLe16 a.name b.name = true) :=
  ⟨fun _ _ _ h1 h2 => natListLe_trans _ _ _ h1 h2⟩

/-- C8 counterexample: the classifier output is NOT sorted by byte-wise
lexicographic name order on all inputs.  With the two app folders "😀"
(U+1F600, UTF-16 code units 0xD83D 0xDE00) and "ﬀ" (U+FB00), the default
`.sort()` comparison by UTF-16 code units puts "😀" first (0xD83D < 0xFB00),
while byte-wise (code-point) order demands "ﬀ" first (0xFB00 < 0x1F600). -/
theorem classifier_not_bytewise_sorted :
    ((detectApps [DirEntry.mk "😀" true false,
        DirEntry.mk "ﬀ" true false]).map (fun a => a.name)) = ["😀", "ﬀ"] ∧
      ¬ List.Sorted (fun a b : App => nameLe a.name b.name = true)
        (detectApps [DirEntry.mk "😀" true false,
          DirEntry.mk "ﬀ" true false]) := by
  have he : detectApps [DirEntry.mk "😀" true false,
      DirEntry.mk "ﬀ" true false] =
      [App.mk "😀" false, App.mk "ﬀ" false] := by decide
  refine ⟨by rw [he]; rfl, fun hs => ?_⟩
  rw [he] at hs
  have h1 := (List.sorted_cons.mp hs).1 (App.mk "ﬀ" false) (by decide)
  exact absurd h1 (by decide)

/-- C8 amended: for every top-level entry set, the classifier output is
sorted by UTF-16 code-unit lexicographic name order — the order the default
`.sort()` actually applies, which agrees with byte-wise lexicographic order
except between supplementary-plane and upper-BMP names; a record is in the
output iff it comes from a top-level directory entry that is not reserved,
classified Containerized iff the directory directly contains
docker-compose.yml (non-directory entries are simply dropped, never an
error); and distinct entry names give distinct output records. -/
theorem classifier_spec :
    (∀ entries : List DirEntry,
        List.Sorted (fun a b : App => nameLe16 a.name b.name = true)
          (detectApps entries)) ∧
      (∀ (entries : List DirEntry) (r : App),
        r ∈ detectApps entries ↔
          ∃ e, e ∈ entries ∧ e.isDir = true ∧ isReserved e.name = false ∧
            r = App.mk e.name e.hasCompose) ∧
      (∀ entries : List DirEntry,
        (entries.map (fun e => e.name)).Nodup →
          ((detectApps entries).map (fun a => a.name)).Nodup) := by
  refine ⟨?_, ?_, ?_⟩
  · intro entries
    exact List.sorted_insertionSort _ _
  · intro entries r
    simp only [detectApps, List.mem_insertionSort, List.mem_map,
      List.mem_filter, Bool.and_eq_true, Bool.not_eq_true']
    constructor
    · rintro ⟨e, ⟨he, hd, hr⟩, rfl⟩
      exact ⟨e, he, hd, hr, rfl⟩
    · rintro ⟨e, he, hd, hr, rfl⟩
      exact ⟨e, ⟨he, hd, hr⟩, rfl⟩
  · intro entries hn
    have hperm :
        List.Perm
          (((entries.filter (fun e => e.isDir && !isReserved e.name)).map
              (fun e => App.mk e.name e.hasCompose)).map (fun a => a.name))
          ((detectApps entries).map (fun a => a.name)) :=
      (List.Perm.map _
        (List.perm_insertionSort
          (fun a b : App => nameLe16 a.name b.name = true) _)).symm
    refine hperm.nodup ?_
    have hsub : List.Sublist
        ((entries.filter (fun e => e.isDir && !isReserved e.name)).map
          (fun e => e.name))
        (entries.map (fun e => e.name)) :=
      (List.filter_sublist entries).map (fun e => e.name)
    have hnf := hn.sublist hsub
    simpa [List.map_map, Function.comp] using hnf

theorem classifier_spec_witness :
    (([DirEntry.mk "b" true false, DirEntry.mk "a" true true].map
        (fun e => e.name)).Nodup) ∧
      ((detectApps [DirEntry.mk "b" true false, DirEntry.mk "a" true true]).map
        (fun a => a.name)).Nodup :=
  ⟨by decide,
    classifier_spec.2.2 [DirEntry.mk "b" true false, DirEntry.mk "a" true true]
      (by decide)⟩

/-- C4 counterexample: on a deploy of the single app folder "myapp" with root
domain "example.com" where every remote call succeeds, the certificate
issuance loop is invoked exactly for "myapp.example.com"; the root domain
"example.com" itself receives no issuance invocation. -/
theorem cert_issuance_misses_root :
    (deployRun okOracle [DirEntry.mk "myapp" true false] "example.com"
        (ServerState.mk "OLD" "OLD")).certInvocations =
      ["myapp.example.com"] ∧
      "example.com" ∉
        (deployRun okOracle [DirEntry.mk "myapp" true false] "example.com"
          (ServerState.mk "OLD" "OLD")).certInvocations := by
  refine ⟨by decide, by decide⟩

/-- C4 amended: on every run that passes the initial file sync, certificate
issuance is invoked exactly once per app — subject `<app>.<rootDomain>` for
every app, static or containerized — and the root domain itself receives no
issuance invocation. -/
theorem cert_issuance_per_app (o : Oracle) (entries : List DirEntry)
    (domain : String) (s : ServerState) (h : o.rsyncOk = true) :
    (deployRun o entries domain s).certInvocations =
        certSubjects (detectApps entries) domain ∧
      (deployRun o entries domain s).certInvocations.length =
        (detectApps entries).length ∧
      domain ∉ (deployRun o entries domain s).certInvocations := by
  have hc : (deployRun o entries domain s).certInvocations =
      certSubjects (detectApps entries) domain := by
    unfold deployRun
    simp only [h, Bool.not_true, Bool.false_eq_true, if_false]
    split
    · rfl
    · split
      · rfl
      · split <;> rfl
  refine ⟨hc, by simp [hc, certSubjects], ?_⟩
  rw [hc]
  intro hmem
  simp only [certSubjects, List.mem_map] at hmem
  obtain ⟨a, _, ha⟩ := hmem
  have hlen := congrArg String.length ha
  have hdot : ("." : String).length = 1 := rfl
  simp only [String.length_append, hdot] at hlen
  omega

theorem cert_issuance_per_app_witness :
    okOracle.rsyncOk = true ∧
      ((deployRun okOracle [DirEntry.mk "blog" true false] "example.com"
          (ServerState.mk "OLD" "OLD")).certInvocations =
        certSubjects (detectApps [DirEntry.mk "blog" true false])
          "example.com" ∧
      (deployRun okOracle [DirEntry.mk "blog" true false] "example.com"
          (ServerState.mk "OLD" "OLD")).certInvocations.length =
        (detectApps [DirEntry.mk "blog" true false]).length ∧
      "example.com" ∉
        (deployRun okOracle [DirEntry.mk "blog" true false] "example.com"
          (ServerState.mk "OLD" "OLD")).certInvocations) :=
  ⟨rfl, cert_issuance_per_app okOracle [DirEntry.mk "blog" true false]
    "example.com" (ServerState.mk "OLD" "OLD") rfl⟩

/-- C5 counterexample: on a run where only the certificate-permission fix
(FIX_PERMISSIONS) fails, the pipeline aborts at FIX_PERMISSIONS — that step
is run without `allowFail: true`, so its failure exits the process. -/
theorem perms_failure_aborts :
    (deployRun permsFailOracle [DirEntry.mk "myapp" true false] "example.com"
        (ServerState.mk "OLD" "OLD")).abortedAt = some Step.fixPermissions := by
  rfl

set_option linter.unnecessarySeqFocus false in
/-- C5 amended: failures in START_CONTAINERS, STOP_ORPHANS and ISSUE_CERTS
never abort the pipeline; the pipeline aborts exactly on a failure of
SYNC_FILES, FIX_PERMISSIONS, the config upload of RENDER_CONFIG, or
VALIDATE_AND_RELOAD. -/
theorem fatal_step_characterization (o : Oracle) (entries : List DirEntry)
    (domain : String) (s : ServerState) :
    ((deployRun o entries domain s).abortedAt = none ∨
      (deployRun o entries domain s).abortedAt = some Step.syncFiles ∨
      (deployRun o entries domain s).abortedAt = some Step.fixPermissions ∨
      (deployRun o entries domain s).abortedAt = some Step.renderConfig ∨
      (deployRun o entries domain s).abortedAt =
        some Step.validateAndReload) ∧
      ((deployRun o entries domain s).abortedAt = none ↔
        o.rsyncOk = true ∧ o.permsOk = true ∧ o.scpOk = true ∧
          o.validateOk (genNginxConfig (detectApps entries) domain) = true) := by
  unfold deployRun
  cases h1 : o.rsyncOk <;> cases h2 : o.permsOk <;> cases h3 : o.scpOk <;>
    simp [h1, h2, h3] <;>
    cases h4 : o.validateOk (genNginxConfig (detectApps entries) domain) <;>
    simp [h4]

theorem blockWalk_length (d : String) (l : List App) (p : Nat) :
    (blockWalk d l p).length = l.length := by
  induction l generalizing p with
  | nil => rfl
  | cons a rest ih => cases h : a.docker <;> simp [blockWalk, h, ih]

theorem blockWalk_cons_docker (d : String) (a : App) (rest : List App)
    (p : Nat) (h : a.docker = true) :
    blockWalk d (a :: rest) p =
      Block.proxyApp a.name d p :: blockWalk d rest (p + 1) := by
  simp [blockWalk, h]

theorem blockWalk_cons_static (d : String) (a : App) (rest : List App)
    (p : Nat) (h : a.docker = false) :
    blockWalk d (a :: rest) p =
      Block.staticApp a.name d :: blockWalk d rest p := by
  simp [blockWalk, h]

theorem blockWalk_countP_plain (d : String) (l : List App) (p : Nat) :
    (blockWalk d l p).countP (fun b => b.isPlainHttp) = 0 := by
  induction l generalizing p with
  | nil => rfl
  | cons a rest ih =>
    cases h : a.docker with
    | false =>
      rw [blockWalk_cons_static d a rest p h, List.countP_cons, ih]
      rfl
    | true =>
      rw [blockWalk_cons_docker d a rest p h, List.countP_cons, ih]
      rfl

theorem blockWalk_countP_root (d : String) (l : List App) (p : Nat) :
    (blockWalk d l p).countP (fun b => b.isRootTls) = 0 := by
  induction l generalizing p with
  | nil => rfl
  | cons a rest ih =>
    cases h : a.docker with
    | false =>
      rw [blockWalk_cons_static d a rest p h, List.countP_cons, ih]
      rfl
    | true =>
      rw [blockWalk_cons_docker d a rest p h, List.countP_cons, ih]
      rfl

theorem blockWalk_countP_name (d : String) (l : List App) (p : Nat)
    (nm : String) :
    (blockWalk d l p).countP (fun b => decide (blockName b = some nm)) =
      l.countP (fun a => decide (a.name = nm)) := by
  induction l generalizing p with
  | nil => rfl
  | cons a rest ih =>
    cases h : a.docker with
    | false =>
      rw [blockWalk_cons_static d a rest p h, List.countP_cons, ih,
        List.countP_cons]
      simp [blockName]
    | true =>
      rw [blockWalk_cons_docker d a rest p h, List.countP_cons, ih,
        List.countP_cons]
      simp [blockName]

theorem blockWalk_mem_shape (d : String) (l : List App) (p : Nat) :
    ∀ b ∈ blockWalk d l p,
      ∃ a ∈ l, blockName b = some a.name ∧ b.isProxy = a.docker := by
  induction l generalizing p with
  | nil => intro b hb; cases hb
  | cons a rest ih =>
    intro b hb
    cases h : a.docker <;> rw [blockWalk] at hb <;> simp only [h] at hb
    · simp only [Bool.false_eq_true, if_false, List.mem_cons] at hb
      rcases hb with rfl | hb
      · exact ⟨a, List.mem_cons_self a rest, rfl, by simp [Block.isProxy, h]⟩
      · obtain ⟨a2, ha2, hn, hk⟩ := ih (p := p) b hb
        exact ⟨a2, List.mem_cons_of_mem a ha2, hn, hk⟩
    · simp only [if_true, List.mem_cons] at hb
      rcases hb with rfl | hb
      · exact ⟨a, List.mem_cons_self a rest, rfl, by simp [Block.isProxy, h]⟩
      · obtain ⟨a2, ha2, hn, hk⟩ := ih (p := p + 1) b hb
        exact ⟨a2, List.mem_cons_of_mem a ha2, hn, hk⟩

theorem genLoop_eq_render (d : String) (l : List App) (p : Nat) :
    genLoop d l p = renderBlocks (blockWalk d l p) := by
  induction l generalizing p with
  | nil => rfl
  | cons a rest ih =>
    cases h : a.docker <;>
      simp [genLoop, blockWalk, h, renderBlocks, renderBlock, ih]

theorem countP_eq_one_of_nodup_mem {α : Type} [DecidableEq α] (l : List α)
    (a : α) (hn : l.Nodup) (ha : a ∈ l) :
    l.countP (fun x => decide (x = a)) = 1 := by
  induction l with
  | nil => cases ha
  | cons b rest ih =>
    rw [List.countP_cons]
    rcases List.mem_cons.mp ha with rfl | hr
    · have hnr : a ∉ rest := (List.nodup_cons.mp hn).1
      have h0 : rest.countP (fun x => decide (x = a)) = 0 :=
        List.countP_eq_zero.mpr (fun x hx => by
          simp only [decide_eq_true_eq]
          rintro rfl
          exact hnr hx)
      simp [h0]
    · have hba : ¬b = a := by
        rintro rfl
        exact (List.nodup_cons.mp hn).1 hr
      have hrest := ih (List.nodup_cons.mp hn).2 hr
      simp [hrest, hba]

/-- C7: a failing certificate issuance never aborts the pipeline: on any
run that passes SYNC_FILES, FIX_PERMISSIONS and the config upload, even with
a failing issuance for some subject, every subject is still invoked, the
failing subject is merely recorded, the full config (with blocks for all
apps) is still rendered, and both RENDER_CONFIG and VALIDATE_AND_RELOAD are
reached. -/
theorem cert_failure_is_recoverable (o : Oracle) (entries : List DirEntry)
    (domain : String) (s : ServerState) (subj : String)
    (h : o.rsyncOk = true) (hp : o.permsOk = true) (hs : o.scpOk = true)
    (_hfail : o.certOk subj = false) :
    (deployRun o entries domain s).certInvocations =
        certSubjects (detectApps entries) domain ∧
      (deployRun o entries domain s).rendered =
        some (genNginxConfig (detectApps entries) domain) ∧
      Step.renderConfig ∈ (deployRun o entries domain s).trace ∧
      Step.validateAndReload ∈ (deployRun o entries domain s).trace := by
  unfold deployRun
  simp only [h, hp, hs, Bool.not_true, Bool.false_eq_true, if_false]
  cases h4 : o.validateOk (genNginxConfig (detectApps entries) domain) <;>
    simp [h4]

theorem cert_failure_is_recoverable_witness :
    oneCertFailOracle.rsyncOk = true ∧ oneCertFailOracle.permsOk = true ∧
      oneCertFailOracle.scpOk = true ∧
      oneCertFailOracle.certOk "bad.example.com" = false ∧
      ((deployRun oneCertFailOracle [DirEntry.mk "bad" true false]
          "example.com" (ServerState.mk "OLD" "OLD")).certInvocations =
        certSubjects (detectApps [DirEntry.mk "bad" true false])
          "example.com" ∧
      (deployRun oneCertFailOracle [DirEntry.mk "bad" true false]
          "example.com" (ServerState.mk "OLD" "OLD")).rendered =
        some (genNginxConfig (detectApps [DirEntry.mk "bad" true false])
          "example.com") ∧
      Step.renderConfig ∈ (deployRun oneCertFailOracle
        [DirEntry.mk "bad" true false] "example.com"
        (ServerState.mk "OLD" "OLD")).trace ∧
      Step.validateAndReload ∈ (deployRun oneCertFailOracle
        [DirEntry.mk "bad" true false] "example.com"
        (ServerState.mk "OLD" "OLD")).trace) :=
  ⟨rfl, rfl, rfl, by decide,
    cert_failure_is_recoverable oneCertFailOracle
      [DirEntry.mk "bad" true false] "example.com"
      (ServerState.mk "OLD" "OLD") "bad.example.com" rfl rfl rfl (by decide)⟩

/-- C1 counterexample: on a run where config validation fails (everything
else succeeding, one static app "blog", previously active config file
content "OLD"), the pipeline does abort at VALIDATE_AND_RELOAD, but the
previously active configuration file is NOT byte-unchanged: it was already
overwritten with the new rendering by the scp that precedes the `nginx -t`
validation. -/
theorem validation_failure_overwrites_site_file :
    (deployRun validateFailOracle [DirEntry.mk "blog" true false]
          "example.com" (ServerState.mk "OLD" "OLD")).abortedAt =
        some Step.validateAndReload ∧
      (deployRun validateFailOracle [DirEntry.mk "blog" true false]
          "example.com" (ServerState.mk "OLD" "OLD")).server.siteFile ≠
        "OLD" := by
  refine ⟨by decide, by decide⟩

/-- C1 amended: the rendered config is validated before the reload that
activates it, and on every run in which validation fails the pipeline
aborts at VALIDATE_AND_RELOAD before the reload step, so the running proxy
keeps serving the previous configuration — but the on-disk previously
active configuration file has already been overwritten with the new
rendering by then. -/
theorem validation_failure_aborts_before_reload (o : Oracle)
    (entries : List DirEntry) (domain : String) (s : ServerState)
    (h : o.rsyncOk = true) (hp : o.permsOk = true) (hs : o.scpOk = true)
    (hv : o.validateOk (genNginxConfig (detectApps entries) domain) = false) :
    (deployRun o entries domain s).reloaded = false ∧
      (deployRun o entries domain s).abortedAt =
        some Step.validateAndReload ∧
      (deployRun o entries domain s).server.loadedConfig = s.loadedConfig ∧
      (deployRun o entries domain s).server.siteFile =
        genNginxConfig (detectApps entries) domain := by
  unfold deployRun
  simp [h, hp, hs, hv]

theorem validation_failure_aborts_before_reload_witness :
    validateFailOracle.rsyncOk = true ∧ validateFailOracle.permsOk = true ∧
      validateFailOracle.scpOk = true ∧
      validateFailOracle.validateOk
        (genNginxConfig (detectApps [DirEntry.mk "api" true true])
          "example.com") = false ∧
      ((deployRun validateFailOracle [DirEntry.mk "api" true true]
          "example.com" (ServerState.mk "A" "B")).reloaded = false ∧
      (deployRun validateFailOracle [DirEntry.mk "api" true true]
          "example.com" (ServerState.mk "A" "B")).abortedAt =
        some Step.validateAndReload ∧
      (deployRun validateFailOracle [DirEntry.mk "api" true true]
          "example.com" (ServerState.mk "A" "B")).server.loadedConfig =
        (ServerState.mk "A" "B").loadedConfig ∧
      (deployRun validateFailOracle [DirEntry.mk "api" true true]
          "example.com" (ServerState.mk "A" "B")).server.siteFile =
        genNginxConfig (detectApps [DirEntry.mk "api" true true])
          "example.com") :=
  ⟨rfl, rfl, rfl, rfl,
    validation_failure_aborts_before_reload validateFailOracle
      [DirEntry.mk "api" true true] "example.com" (ServerState.mk "A" "B")
      rfl rfl rfl rfl⟩

theorem start_ports_match_proxy_ports_witness :
    okOracle.rsyncOk = true ∧
      (deployRun okOracle [DirEntry.mk "api" true true] "example.com"
          (ServerState.mk "OLD" "OLD")).startInvocations =
        (blockList (detectApps [DirEntry.mk "api" true true])
            "example.com").filterMap proxyPortOf :=
  ⟨rfl, start_ports_match_proxy_ports okOracle [DirEntry.mk "api" true true]
    "example.com" (ServerState.mk "OLD" "OLD") rfl⟩

/-- C10: for every app list (with distinct names) and domain, the generated
routing document consists of exactly one plaintext port-80 block, exactly
one secured root-domain block, and exactly one secured block per app — a
forward-proxy block iff the app is containerized — so the total number of
server blocks is the app count plus two, and the rendered document is
exactly the concatenation of these blocks. -/
theorem config_block_structure (apps : List App) (d : String)
    (hn : (apps.map (fun a => a.name)).Nodup) :
    (blockList apps d).length = apps.length + 2 ∧
      (blockList apps d).countP (fun b => b.isPlainHttp) = 1 ∧
      (blockList apps d).countP (fun b => b.isRootTls) = 1 ∧
      (∀ a ∈ apps,
        (blockList apps d).countP
          (fun b => decide (blockName b = some a.name)) = 1) ∧
      (∀ a ∈ apps, ∀ b ∈ blockList apps d,
        blockName b = some a.name → b.isProxy = a.docker) ∧
      genNginxConfig apps d = renderBlocks (blockList apps d) := by
  have hcons : blockList apps d =
      Block.plainHttp d :: Block.rootTls d :: blockWalk d apps 3000 := rfl
  refine ⟨?_, ?_, ?_, ?_, ?_, ?_⟩
  · rw [hcons]
    simp [blockWalk_length]
  · rw [hcons, List.countP_cons, List.countP_cons, blockWalk_countP_plain]
    rfl
  · rw [hcons, List.countP_cons, List.countP_cons, blockWalk_countP_root]
    rfl
  · intro a ha
    have hm : a.name ∈ apps.map (fun x => x.name) :=
      List.mem_map.mpr ⟨a, ha, rfl⟩
    have hcnt := countP_eq_one_of_nodup_mem (apps.map (fun x => x.name))
      a.name hn hm
    rw [List.countP_map] at hcnt
    rw [hcons, List.countP_cons, List.countP_cons, blockWalk_countP_name]
    have e1 : decide (blockName (Block.rootTls d) = some a.name) = false := rfl
    have e2 : decide (blockName (Block.plainHttp d) = some a.name) = false :=
      rfl
    rw [e1, e2]
    simpa [Function.comp] using hcnt
  · intro a ha b hb hname
    rw [hcons] at hb
    rcases List.mem_cons.mp hb with rfl | hb
    · simp [blockName] at hname
    · rcases List.mem_cons.mp hb with rfl | hb
      · simp [blockName] at hname
      · obtain ⟨a2, ha2, hn2, hk⟩ := blockWalk_mem_shape d apps 3000 b hb
        have hnames : a2.name = a.name := by
          rw [hn2] at hname
          exact Option.some.inj hname
        have : a2 = a :=
          List.inj_on_of_nodup_map hn ha2 ha hnames
        rw [hk, this]
  · rw [genNginxConfig, genLoop_eq_render, hcons]
    simp [renderBlocks, renderBlock, String.append_assoc]

theorem config_block_structure_witness :
    (([App.mk "api" true, App.mk "blog" false].map
        (fun a => a.name)).Nodup) ∧
      ((blockList [App.mk "api" true, App.mk "blog" false]
          "example.com").length =
        [App.mk "api" true, App.mk "blog" false].length + 2 ∧
      (blockList [App.mk "api" true, App.mk "blog" false]
          "example.com").countP (fun b => b.isPlainHttp) = 1 ∧
      (blockList [App.mk "api" true, App.mk "blog" false]
          "example.com").countP (fun b => b.isRootTls) = 1 ∧
      (∀ a ∈ [App.mk "api" true, App.mk "blog" false],
        (blockList [App.mk "api" true, App.mk "blog" false]
            "example.com").countP
          (fun b => decide (blockName b = some a.name)) = 1) ∧
      (∀ a ∈ [App.mk "api" true, App.mk "blog" false],
        ∀ b ∈ blockList [App.mk "api" true, App.mk "blog" false]
            "example.com",
        blockName b = some a.name → b.isProxy = a.docker) ∧
      genNginxConfig [App.mk "api" true, App.mk "blog" false] "example.com" =
        renderBlocks (blockList [App.mk "api" true, App.mk "blog" false]
          "example.com")) :=
  ⟨by decide,
    config_block_structure [App.mk "api" true, App.mk "blog" false]
      "example.com" (by decide)⟩
